import Mathlib

/-!
Shallow embedding of the RevolutManager personal ledger (src/app.py).

Modelling conventions:
* Python floats carrying money and rates are modelled as exact rationals.
* The SQLAlchemy session is modelled by explicit state passing: every
  mutating route is a function from a state to a result together with the
  committed state.  A route that returns an error before calling
  db.session.commit leaves the persisted state unchanged (Flask-SQLAlchemy
  removes the scoped session at request teardown, rolling back any
  uncommitted attribute mutation), so error branches of the embedding
  return no new state.
* Autoincrement primary keys are modelled by explicit next-id counters.
* datetime values are modelled by a (year, month, day, sec) tuple compared
  lexicographically, exactly the comparison order of datetime objects.
* HTTP request parsing, the network fetch of the CNB text file and the
  rendered UI are collaborator boundaries: routes take already typed
  payloads, and the rate feed is taken as the parsed currency-to-rate list.
-/

namespace RevolutManager

def BASE_CURRENCY : String := "GBP"

def HOME_CURRENCY : String := "CZK"

/-- Row of the predefined_rate table (class PredefinedRate).  created and
updated timestamps are abstract clock values. -/
structure RateRow where
  id : Nat
  from_currency : String
  to_currency : String
  rate : Rat
  description : Option String
  created : Nat
  updated : Nat
deriving DecidableEq

/-- Row of the expected_cost table (class ExpectedCost).  The created
timestamp is omitted: none of the modelled operations reads it. -/
structure ExpectedCost where
  id : Nat
  description : String
  amount : Rat
  currency : String
  rate_id : Nat
  norm_amount : Rat
  norm_remaining : Rat
deriving DecidableEq

/-- Row of the income table (class Income).  norm_rate is nullable in the
schema but always written by the modelled creation routes. -/
structure Income where
  id : Nat
  date : Int × Int × Int × Int
  description : String
  amount : Rat
  currency : String
  rate_id : Nat
  norm_amount : Rat
  norm_rate : Rat
  fixed_rate : Bool
deriving DecidableEq

/-- Row of the cost table (class Cost). -/
structure Cost where
  id : Nat
  date : Int × Int × Int × Int
  description : String
  amount : Rat
  currency : String
  rate_id : Nat
  norm_amount : Rat
  norm_rate : Rat
  expected_ref_id : Option Nat
deriving DecidableEq

/-- Abstract datetime: (year, month, day, seconds of day), compared the way
Python datetime compares, i.e. lexicographically. -/
abbrev DateTime := Int × Int × Int × Int

/-- Lexicographic order on datetimes (Python datetime comparison). -/
def dtLe (a b : DateTime) : Bool :=
  decide (a.1 < b.1 ∨ (a.1 = b.1 ∧ (a.2.1 < b.2.1 ∨ (a.2.1 = b.2.1 ∧
    (a.2.2.1 < b.2.2.1 ∨ (a.2.2.1 = b.2.2.1 ∧ a.2.2.2 ≤ b.2.2.2))))))

/-- Whole database: the five tables of the model plus autoincrement
counters.  MonthlyCostTarget is a zero-or-one-row table, hence an Option. -/
structure St where
  rates : List RateRow
  incomes : List Income
  costs : List Cost
  expecteds : List ExpectedCost
  target : Option Rat
  next_rate_id : Nat
  next_income_id : Nat
  next_cost_id : Nat
  next_expected_id : Nat
deriving DecidableEq

/-- db.session.get(PredefinedRate, rid). -/
def St.findRate (s : St) (rid : Nat) : Option RateRow :=
  s.rates.find? (fun r => r.id == rid)

/-- self.rate.rate through the relationship.  The foreign key is declared
non-nullable, so the row always exists for rows the app created; the
default 0 branch is unreachable on such states. -/
def St.rateFactorD (s : St) (rid : Nat) : Rat :=
  ((s.findRate rid).map (fun r => r.rate)).getD 0

def St.findExpected (s : St) (eid : Nat) : Option ExpectedCost :=
  s.expecteds.find? (fun e => e.id == eid)

def St.findCost (s : St) (cid : Nat) : Option Cost :=
  s.costs.find? (fun c => c.id == cid)

def St.findIncome (s : St) (iid : Nat) : Option Income :=
  s.incomes.find? (fun i => i.id == iid)

/-- ExpectedCost.current_norm_amount, with the live factor of the
referenced rate passed explicitly. -/
def ExpectedCost.current_norm_amount (e : ExpectedCost) (f : Rat) : Rat :=
  e.amount * f

/-- ExpectedCost.current_norm_remaining, with the live factor passed
explicitly: 0 when norm_amount is not positive, otherwise the live total
scaled by the stored remaining fraction. -/
def ExpectedCost.current_norm_remaining (e : ExpectedCost) (f : Rat) : Rat :=
  if e.norm_amount ≤ 0 then 0
  else e.current_norm_amount f * (e.norm_remaining / e.norm_amount)

/-- Income.current_norm_amount: frozen value in fixed mode, amount times
the live factor in dynamic mode. -/
def Income.current_norm_amount (i : Income) (f : Rat) : Rat :=
  if i.fixed_rate then i.norm_amount else i.amount * f

/-- Income.current_norm_amount with the live factor looked up through the
rate relationship of the income. -/
def St.incomeLive (s : St) (i : Income) : Rat :=
  i.current_norm_amount (s.rateFactorD i.rate_id)

/-- ExpectedCost.current_norm_remaining with the live factor looked up
through the rate relationship of the expected cost. -/
def St.expectedLiveRemaining (s : St) (e : ExpectedCost) : Rat :=
  e.current_norm_remaining (s.rateFactorD e.rate_id)

/-! ## Ledger operations (the Flask route bodies, src/app.py) -/

/-- Error outcomes of the cut route; each maps to an HTTP status below. -/
inductive CutErr where
  | expectedNotFound
  | missingAmount
  | amountNotPositive
  | amountExceedsRemaining
  | rateNotFound
deriving DecidableEq

/-- HTTP status returned with each cut error in the source. -/
def CutErr.status : CutErr → Nat
  | .expectedNotFound => 404
  | .missingAmount => 400
  | .amountNotPositive => 400
  | .amountExceedsRemaining => 400
  | .rateNotFound => 404

/-- Whether a cut error is reported as NotFound (404) rather than as a
validation error (400). -/
def CutErr.isNotFound (e : CutErr) : Bool := e.status == 404

/-- JSON body of POST /expected/id/cut.  Absent keys are none. -/
structure CutPayload where
  amount : Option Rat
  rate_id : Option Nat
  description : Option String
deriving DecidableEq

/-- The rate id used by the cut: the payload value when present, else
the rate id of the expected cost.  Python or falls through on the falsy
value 0 as well as on an absent key. -/
def cutRateId (p : CutPayload) (e : ExpectedCost) : Nat :=
  match p.rate_id with
  | some r => if r ≠ 0 then r else e.rate_id
  | none => e.rate_id

/-- The description of the minted cost: the payload value when present,
with the empty string falsy in Python and falling through to the
default label. -/
def cutDescription (p : CutPayload) (e : ExpectedCost) : String :=
  match p.description with
  | some d => if d ≠ "" then d else "cut from expected " ++ e.description
  | none => "cut from expected " ++ e.description

/-- POST /expected/<id>/cut (cut_from_expected).  On success returns the
committed state together with the new cost id.  The reduction of
expected.norm_remaining that the source performs before its rate lookup is
never committed on the rate-not-found path, so that branch returns no
state. -/
def cutFromExpected (s : St) (expected_id : Nat) (p : CutPayload)
    (now : DateTime) : Except CutErr (St × Nat) :=
  match s.findExpected expected_id with
  | none => .error .expectedNotFound
  | some expected =>
    match p.amount with
    | none => .error .missingAmount
    | some amount =>
      if amount ≤ 0 then .error .amountNotPositive
      else
        let current_remaining :=
          expected.current_norm_remaining (s.rateFactorD expected.rate_id)
        if current_remaining < amount then .error .amountExceedsRemaining
        else
          let cna := expected.current_norm_amount (s.rateFactorD expected.rate_id)
          let reduction := if cna > 0 then amount / cna else 0
          let expected2 := { expected with
            norm_remaining := expected.norm_remaining - expected.norm_amount * reduction }
          let rate_id := cutRateId p expected
          match s.findRate rate_id with
          | none => .error .rateNotFound
          | some rate =>
            let cost : Cost :=
              { id := s.next_cost_id
                date := now
                description := cutDescription p expected
                amount := amount
                currency := rate.from_currency
                rate_id := rate_id
                norm_amount := amount * rate.rate
                norm_rate := rate.rate
                expected_ref_id := some expected.id }
            .ok ({ s with
                    expecteds := s.expecteds.map
                      (fun x => if x.id == expected_id then expected2 else x)
                    costs := s.costs ++ [cost]
                    next_cost_id := s.next_cost_id + 1 },
                 cost.id)

/-- The persisted state after a cut request: the committed state on
success, the unchanged store otherwise. -/
def cutStep (s : St) (expected_id : Nat) (p : CutPayload) (now : DateTime) : St :=
  match cutFromExpected s expected_id p now with
  | .ok (s2, _) => s2
  | .error _ => s

/-- JSON body of PUT /expected/<id>. -/
structure ExpectedUpdate where
  description : Option String
  amount : Option Rat
deriving DecidableEq

inductive UpdErr where
  | notFound
  | amountNotPositive
deriving DecidableEq

/-- PUT /expected/<id> (update_expected): optional description and amount
update, then an unconditional recomputation of norm_amount from the live
rate and of norm_remaining from the frozen paid part. -/
def updateExpected (s : St) (expected_id : Nat) (d : ExpectedUpdate) :
    Except UpdErr St :=
  match s.findExpected expected_id with
  | none => .error .notFound
  | some expected0 =>
    let expected1 :=
      match d.description with
      | some ds => { expected0 with description := ds }
      | none => expected0
    let original_norm_amount := expected1.norm_amount
    let original_norm_remaining := expected1.norm_remaining
    let original_norm_paid := original_norm_amount - original_norm_remaining
    let commit := fun (e2 : ExpectedCost) =>
      let e3 := { e2 with norm_amount := e2.amount * s.rateFactorD e2.rate_id }
      let e4 := { e3 with norm_remaining := e3.norm_amount - original_norm_paid }
      let rows := s.expecteds.map (fun x => if x.id == expected_id then e4 else x)
      { s with expecteds := rows }
    match d.amount with
    | some na =>
      if na ≤ 0 then .error .amountNotPositive
      else .ok (commit { expected1 with amount := na })
    | none => .ok (commit expected1)

inductive CreateErr where
  | rateNotFound
deriving DecidableEq

/-- POST /expected (expected_list_or_create, creation half): currency is
deduced from the rate, norm_remaining starts equal to norm_amount.  The
source does not validate positivity of the amount here. -/
def createExpected (s : St) (amount : Rat) (rate_id : Nat) (desc : String) :
    Except CreateErr (St × Nat) :=
  match s.findRate rate_id with
  | none => .error .rateNotFound
  | some rate =>
    let norm_amount := amount * rate.rate
    let e : ExpectedCost :=
      { id := s.next_expected_id
        description := desc
        amount := amount
        currency := rate.from_currency
        rate_id := rate_id
        norm_amount := norm_amount
        norm_remaining := norm_amount }
    .ok ({ s with
            expecteds := s.expecteds ++ [e]
            next_expected_id := s.next_expected_id + 1 },
         e.id)

inductive DelErr where
  | notFound
deriving DecidableEq

/-- DELETE /cost/<id> (delete_cost): adds the stored norm_amount back to
the linked expected cost, if any, then removes the cost row. -/
def deleteCost (s : St) (cost_id : Nat) : Except DelErr St :=
  match s.findCost cost_id with
  | none => .error .notFound
  | some cost =>
    let s1 :=
      match cost.expected_ref_id with
      | some eid =>
        let rows := s.expecteds.map (fun (e : ExpectedCost) =>
          if e.id == eid then
            { e with norm_remaining := e.norm_remaining + cost.norm_amount }
          else e)
        { s with expecteds := rows }
      | none => s
    .ok { s1 with costs := s1.costs.filter (fun c => !(c.id == cost_id)) }

/-- DELETE /expected/<id> (delete_expected): orphans linked costs, then
removes the expected cost row. -/
def deleteExpected (s : St) (expected_id : Nat) : Except DelErr St :=
  match s.findExpected expected_id with
  | none => .error .notFound
  | some _ =>
    let costs := s.costs.map
      (fun c => if c.expected_ref_id == some expected_id then
         { c with expected_ref_id := none } else c)
    .ok { s with
           costs := costs
           expecteds := s.expecteds.filter (fun e => !(e.id == expected_id)) }

/-- Convenience total wrappers used to build concrete executions: the
persisted state of a request (errors commit nothing). -/
def createExpectedStep (s : St) (amount : Rat) (rate_id : Nat) (desc : String) : St :=
  match createExpected s amount rate_id desc with
  | .ok (s2, _) => s2
  | .error _ => s

def deleteCostStep (s : St) (cost_id : Nat) : St :=
  match deleteCost s cost_id with
  | .ok s2 => s2
  | .error _ => s

/-- JSON body of POST /income, already typed.  Missing-field validation
and ISO date parsing happen at the collaborator boundary. -/
structure IncomePayload where
  amount : Rat
  rate_id : Nat
  description : String
  fixed_rate : Bool
  date : Option DateTime
deriving DecidableEq

/-- POST /income (add_income): currency is deduced from the rate, the
rate factor is snapshotted into norm_rate and norm_amount. -/
def addIncome (s : St) (now : DateTime) (p : IncomePayload) :
    Except CreateErr (St × Nat) :=
  let date := p.date.getD now
  match s.findRate p.rate_id with
  | none => .error .rateNotFound
  | some rate =>
    let norm_amount := p.amount * rate.rate
    let inc : Income :=
      { id := s.next_income_id
        date := date
        description := p.description
        amount := p.amount
        currency := rate.from_currency
        rate_id := p.rate_id
        norm_amount := norm_amount
        norm_rate := rate.rate
        fixed_rate := p.fixed_rate }
    .ok ({ s with
            incomes := s.incomes ++ [inc]
            next_income_id := s.next_income_id + 1 },
         inc.id)

/-! ## Balance aggregation (get_balance, get_monthly_summary) -/

/-- sum(i.current_norm_amount for i in incomes). -/
def totalIncome (s : St) : Rat :=
  (s.incomes.map (fun i => s.incomeLive i)).sum

/-- coalesce(sum(Cost.norm_amount), 0.0): the sum of an empty table is 0. -/
def totalCosts (s : St) : Rat :=
  (s.costs.map (fun c => c.norm_amount)).sum

/-- sum(e.current_norm_remaining for e in expected_costs). -/
def totalExpectedRemaining (s : St) : Rat :=
  (s.expecteds.map (fun e => s.expectedLiveRemaining e)).sum

/-- PredefinedRate.query.filter_by(from_currency=BASE, to_currency=CZK)
.first(): the first base-to-home row, any description. -/
def czkRateRow (s : St) : Option RateRow :=
  s.rates.find? (fun r =>
    r.from_currency == BASE_CURRENCY && r.to_currency == "CZK")

/-- Response of GET /balance. -/
structure BalanceView where
  balance : Rat
  total_income : Rat
  total_costs : Rat
  total_expected_remaining : Rat
  balance_czk : Option Rat
  total_income_czk : Option Rat
  total_costs_czk : Option Rat
  total_expected_remaining_czk : Option Rat
deriving DecidableEq

/-- GET /balance (get_balance).  The Python `x or 0.0` coercions are
identities on rationals (0 or 0.0 is 0). -/
def getBalance (s : St) : BalanceView :=
  let total_income := totalIncome s
  let total_costs := totalCosts s
  let total_expected_remaining := totalExpectedRemaining s
  let balance := total_income - (total_costs + total_expected_remaining)
  match czkRateRow s with
  | some r =>
    { balance := balance
      total_income := total_income
      total_costs := total_costs
      total_expected_remaining := total_expected_remaining
      balance_czk := some (balance * r.rate)
      total_income_czk := some (total_income * r.rate)
      total_costs_czk := some (total_costs * r.rate)
      total_expected_remaining_czk := some (total_expected_remaining * r.rate) }
  | none =>
    { balance := balance
      total_income := total_income
      total_costs := total_costs
      total_expected_remaining := total_expected_remaining
      balance_czk := none
      total_income_czk := none
      total_costs_czk := none
      total_expected_remaining_czk := none }

/-- Gregorian leap year, as used by datetime. -/
def isLeapYear (y : Int) : Bool :=
  y % 4 == 0 && (y % 100 != 0 || y % 400 == 0)

/-- Length of a month, as used by datetime arithmetic. -/
def daysInMonth (y m : Int) : Int :=
  if m == 2 then (if isLeapYear y then 29 else 28)
  else if m == 4 || m == 6 || m == 9 || m == 11 then 30 else 31

/-- The year/month rollover loop: while month <= 0: month += 12; year -= 1. -/
def normYM (y m : Int) : Int × Int :=
  if m ≤ 0 then normYM (y - 1) (m + 12) else (y, m)
termination_by (1 - m).toNat
decreasing_by omega

/-- first_day = datetime(year, month, 1). -/
def firstDayOfMonth (y m : Int) : DateTime := (y, m, 1, 0)

/-- last_day = datetime of the first of the next month minus one day:
midnight of the last calendar day of the month. -/
def lastDayOfMonth (y m : Int) : DateTime :=
  if m == 12 then (y, 12, 31, 0) else (y, m, daysInMonth y m, 0)

/-- One element of the summaries list (month_name omitted: a display
label derived from month). -/
structure MonthSummary where
  year : Int
  month : Int
  income : Rat
  costs : Rat
  balance : Rat
  income_count : Nat
  costs_count : Nat
  target_costs : Option Rat
  cost_diff : Option Rat
deriving DecidableEq

/-- Incomes of the month window of get_monthly_summary. -/
def monthIncomes (s : St) (y m : Int) : List Income :=
  s.incomes.filter (fun i =>
    dtLe (firstDayOfMonth y m) i.date && dtLe i.date (lastDayOfMonth y m))

/-- Costs of the month window of get_monthly_summary. -/
def monthCosts (s : St) (y m : Int) : List Cost :=
  s.costs.filter (fun c =>
    dtLe (firstDayOfMonth y m) c.date && dtLe c.date (lastDayOfMonth y m))

/-- Body of one loop iteration of get_monthly_summary. -/
def monthEntry (s : St) (now : DateTime) (i : Nat) : MonthSummary :=
  let ym := normYM now.1 (now.2.1 - (i : Int))
  let y := ym.1
  let m := ym.2
  let mi := monthIncomes s y m
  let mc := monthCosts s y m
  let total_income := (mi.map (fun inc => s.incomeLive inc)).sum
  let total_costs := (mc.map (fun c => c.norm_amount)).sum
  let balance := total_income - total_costs
  let target_amount := s.target
  { year := y
    month := m
    income := total_income
    costs := total_costs
    balance := balance
    income_count := mi.length
    costs_count := mc.length
    target_costs := target_amount
    cost_diff := target_amount.map (fun t => t - total_costs) }

/-- get_monthly_summary(months_back): one entry per i in range(months_back). -/
def getMonthlySummary (s : St) (months_back : Nat) (now : DateTime) :
    List MonthSummary :=
  (List.range months_back).map (monthEntry s now)

/-! ## CNB feed refresh (fetch_cnb_rates, update_cnb_rates)

The network fetch and the pipe-separated text parsing are the collaborator
boundary; the model starts from the parsed per-currency list (currency,
rate to CZK, already divided by the quoted quantity).  Dictionary keys of
the Python code are the strings A_TO_B; since currency codes never contain
the separator, they are modelled as ordered pairs. -/

abbrev RateKey := String × String

/-- Python dict assignment d[k] = v: replace the value if the key exists,
append otherwise. -/
def dictInsert (d : List (RateKey × Rat)) (k : RateKey) (v : Rat) :
    List (RateKey × Rat) :=
  if d.any (fun p => p.1 == k) then
    d.map (fun p => if p.1 == k then (k, v) else p)
  else d ++ [(k, v)]

def dictLookup (d : List (RateKey × Rat)) (k : RateKey) : Option Rat :=
  (d.find? (fun p => p.1 == k)).map (fun p => p.2)

/-- The crossrate double loop of fetch_cnb_rates: for each ordered pair of
distinct feed currencies, curr1 -> CZK -> curr2 and its flip. -/
def genCrossRates (m : List (String × Rat)) : List (RateKey × Rat) :=
  m.foldl (fun d p1 =>
    m.foldl (fun d p2 =>
      if p1.1 ≠ p2.1 then
        let rate := p1.2 * (1 / p2.2)
        dictInsert (dictInsert d (p1.1, p2.1) rate) (p2.1, p1.1) (1 / rate)
      else d) d) []

/-- The exact-rate loop of fetch_cnb_rates: curr -> CZK and CZK -> curr,
overwriting any crossrate entry for the same key. -/
def genExactRates (m : List (String × Rat)) (d : List (RateKey × Rat)) :
    List (RateKey × Rat) :=
  m.foldl (fun d p =>
    dictInsert (dictInsert d (p.1, "CZK") p.2) ("CZK", p.1) (1 / p.2)) d

/-- fetch_cnb_rates, from the parsed feed list. -/
def fetchCnbRates (m : List (String × Rat)) : List (RateKey × Rat) :=
  genExactRates m (genCrossRates m)

/-- The undescribed (official) rate row for a direction: the .first() of
filter_by(from_currency, to_currency, description=None). -/
def officialRate (rows : List RateRow) (fc tc : String) : Option RateRow :=
  rows.find? (fun r =>
    r.from_currency == fc && r.to_currency == tc && r.description == none)

/-- Factor of the official row for a direction, when present. -/
def officialFactor (rows : List RateRow) (fc tc : String) : Option Rat :=
  (officialRate rows fc tc).map (fun r => r.rate)

/-- In-place update of the first matching official row (the ORM mutates
the object returned by .first()). -/
def setOfficialRate (rows : List RateRow) (fc tc : String) (v : Rat)
    (now : Nat) : List RateRow :=
  match rows with
  | [] => []
  | r :: rest =>
    if r.from_currency == fc && r.to_currency == tc && r.description == none then
      { r with rate := v, updated := now } :: rest
    else r :: setOfficialRate rest fc tc v now

/-- One iteration of the update loop of update_cnb_rates: update the
official row if it exists and differs, create it if it is missing. -/
def upsertOfficialRate (now : Nat) (fc tc : String) (v : Rat)
    (acc : List RateRow × Nat) : List RateRow × Nat :=
  match officialRate acc.1 fc tc with
  | some rate =>
    if ¬ (rate.rate == v) then (setOfficialRate acc.1 fc tc v now, acc.2)
    else acc
  | none =>
    (acc.1 ++ [{ id := acc.2
                 from_currency := fc
                 to_currency := tc
                 rate := v
                 description := none
                 created := now
                 updated := now }],
     acc.2 + 1)

/-- update_cnb_rates: fetch, guard on the two GBP/CZK keys, filter to the
directions into the base or home currency, and upsert each official row.
Key splitting always yields two parts because currency codes do not
contain the separator. -/
def updateCnbRates (now : Nat) (m : List (String × Rat)) (s : St) : St :=
  let cnb_rates := fetchCnbRates m
  if cnb_rates.isEmpty
      || (dictLookup cnb_rates ("CZK", "GBP")).isNone
      || (dictLookup cnb_rates ("GBP", "CZK")).isNone then s
  else
    let cnb_rates_to_base := cnb_rates.filter (fun p =>
      p.1.2 == BASE_CURRENCY || p.1.2 == HOME_CURRENCY)
    let acc := cnb_rates_to_base.foldl (fun acc p =>
      if p.1.1 == p.1.2 then acc
      else upsertOfficialRate now p.1.1 p.1.2 p.2 acc)
      (s.rates, s.next_rate_id)
    { s with rates := acc.1, next_rate_id := acc.2 }

/-! ## Helper lemmas -/

/-- Updating the rows whose id matches a found row relocates the find to
the updated row. -/
theorem find?_map_update {α : Type} (idOf : α → Nat) (eid : Nat) (g : α → α)
    (l : List α) (e : α)
    (h : l.find? (fun x => idOf x == eid) = some e) (hg : idOf (g e) = eid) :
    (l.map (fun x => if idOf x == eid then g x else x)).find?
      (fun x => idOf x == eid) = some (g e) := by
  induction l with
  | nil => simp at h
  | cons a l ih =>
    simp only [List.find?_cons] at h
    simp only [List.map_cons, List.find?_cons]
    by_cases ha : (idOf a == eid) = true
    · simp only [ha] at h
      obtain rfl : a = e := by simpa using h
      simp [ha, hg]
    · simp only [Bool.not_eq_true] at ha
      simp only [ha] at h
      simp only [ha, Bool.false_eq_true, if_false]
      exact ih h

/-- If no element of the prefix satisfies the predicate, find over the
concatenation finds in the suffix. -/
theorem find?_append_right {α : Type} (p : α → Bool) (l1 l2 : List α)
    (h : l1.find? p = none) : (l1 ++ l2).find? p = l2.find? p := by
  rw [List.find?_append, h, Option.none_or]

/-- Shape of a successful cut: the committed state rescales the stored
norm_remaining of the expected cost and appends the new linked cost row. -/
theorem cut_ok (s : St) (eid : Nat) (p : CutPayload) (now : DateTime)
    (e : ExpectedCost) (a : Rat) (rr : RateRow)
    (hfind : s.findExpected eid = some e)
    (hamt : p.amount = some a)
    (hpos : 0 < a)
    (hle : a ≤ e.current_norm_remaining (s.rateFactorD e.rate_id))
    (hrate : s.findRate (cutRateId p e) = some rr) :
    cutFromExpected s eid p now =
      .ok ({ s with
              expecteds := s.expecteds.map (fun x =>
                if x.id == eid then
                  { e with norm_remaining := e.norm_remaining -
                      e.norm_amount *
                        (if 0 < e.current_norm_amount (s.rateFactorD e.rate_id)
                         then a / e.current_norm_amount (s.rateFactorD e.rate_id)
                         else 0) }
                else x)
              costs := s.costs ++ [{ id := s.next_cost_id
                                     date := now
                                     description := cutDescription p e
                                     amount := a
                                     currency := rr.from_currency
                                     rate_id := cutRateId p e
                                     norm_amount := a * rr.rate
                                     norm_rate := rr.rate
                                     expected_ref_id := some e.id }]
              next_cost_id := s.next_cost_id + 1 },
           s.next_cost_id) := by
  unfold cutFromExpected
  rw [hfind, hamt]
  simp only [if_neg (not_le.mpr hpos), if_neg (not_lt.mpr hle), hrate]

/-! ## Fixtures used by the closed witness theorems -/

def rateGBP : RateRow :=
  { id := 1, from_currency := "GBP", to_currency := "GBP", rate := 1,
    description := none, created := 0, updated := 0 }

def expectedTrip : ExpectedCost :=
  { id := 1, description := "trip", amount := 100, currency := "GBP",
    rate_id := 1, norm_amount := 100, norm_remaining := 100 }

def baseSt : St :=
  { rates := [rateGBP], incomes := [], costs := [], expecteds := [expectedTrip],
    target := none, next_rate_id := 2, next_income_id := 1, next_cost_id := 1,
    next_expected_id := 2 }

def cutPay40 : CutPayload :=
  { amount := some 40, rate_id := none, description := none }

def epoch : DateTime := (2026, 1, 1, 0)

/-! ## C1 -/

/-- Claim C1: a successful cut of amount a from an Expected Cost subtracts
norm_amount * (a / current_norm_amount) from the stored norm_remaining
(ratio 0 when current_norm_amount is not positive), and creates a Cost
linked via expected_ref_id with amount a and norm_amount = a * rate.rate,
the rate being the supplied one or, when none is supplied, the own
rate of the Expected Cost. -/
theorem cut_success_effect (s : St) (eid : Nat) (p : CutPayload)
    (now : DateTime) (e : ExpectedCost) (a : Rat) (rr : RateRow)
    (hfreshC : ∀ c ∈ s.costs, (c.id == s.next_cost_id) = false)
    (hsup : p.rate_id = none ∨ ∃ r, p.rate_id = some r ∧ r ≠ 0)
    (hfind : s.findExpected eid = some e)
    (hamt : p.amount = some a)
    (hpos : 0 < a)
    (hle : a ≤ e.current_norm_remaining (s.rateFactorD e.rate_id))
    (hrate : s.findRate (p.rate_id.getD e.rate_id) = some rr) :
    ∃ s2, cutFromExpected s eid p now = .ok (s2, s.next_cost_id) ∧
      s2.findExpected eid = some { e with norm_remaining :=
        e.norm_remaining - e.norm_amount *
          (if 0 < e.current_norm_amount (s.rateFactorD e.rate_id)
           then a / e.current_norm_amount (s.rateFactorD e.rate_id) else 0) } ∧
      ∃ c, s2.findCost s.next_cost_id = some c ∧
        c.expected_ref_id = some e.id ∧
        c.amount = a ∧
        c.rate_id = p.rate_id.getD e.rate_id ∧
        c.norm_amount = a * rr.rate := by
  have hcut : cutRateId p e = p.rate_id.getD e.rate_id := by
    rcases hsup with h | ⟨r, hr, hr0⟩
    · simp [cutRateId, h]
    · simp [cutRateId, hr, hr0]
  rw [← hcut] at hrate
  have heid : e.id = eid := by
    have hp := List.find?_some hfind
    simpa using hp
  have hfind2 : s.expecteds.find? (fun x => x.id == eid) = some e := hfind
  refine ⟨_, cut_ok s eid p now e a rr hfind hamt hpos hle hrate, ?_, ?_⟩
  · exact find?_map_update (fun x => x.id) eid
      (fun _ => { e with norm_remaining := e.norm_remaining - e.norm_amount *
          (if 0 < e.current_norm_amount (s.rateFactorD e.rate_id)
           then a / e.current_norm_amount (s.rateFactorD e.rate_id) else 0) })
      s.expecteds e hfind2 heid
  · refine ⟨{ id := s.next_cost_id
              date := now
              description := cutDescription p e
              amount := a
              currency := rr.from_currency
              rate_id := cutRateId p e
              norm_amount := a * rr.rate
              norm_rate := rr.rate
              expected_ref_id := some e.id }, ?_, rfl, rfl, hcut, rfl⟩
    show (s.costs ++ _).find? _ = _
    rw [find?_append_right _ _ _ (List.find?_eq_none.mpr (by
      intro c hc
      simpa using hfreshC c hc))]
    exact List.find?_cons_of_pos _ (by simp)

/-- Witness for C1 at the fixture state: cutting 40 from a 100 GBP
expected cost at rate 1. -/
theorem cut_success_effect_witness :
    ∃ s2, cutFromExpected baseSt 1 cutPay40 epoch = .ok (s2, baseSt.next_cost_id) ∧
      s2.findExpected 1 = some { expectedTrip with norm_remaining :=
        expectedTrip.norm_remaining - expectedTrip.norm_amount *
          (if 0 < expectedTrip.current_norm_amount
              (baseSt.rateFactorD expectedTrip.rate_id)
           then (40 : Rat) / expectedTrip.current_norm_amount
              (baseSt.rateFactorD expectedTrip.rate_id) else 0) } ∧
      ∃ c, s2.findCost baseSt.next_cost_id = some c ∧
        c.expected_ref_id = some expectedTrip.id ∧
        c.amount = (40 : Rat) ∧
        c.rate_id = cutPay40.rate_id.getD expectedTrip.rate_id ∧
        c.norm_amount = (40 : Rat) * rateGBP.rate :=
  cut_success_effect baseSt 1 cutPay40 epoch expectedTrip 40 rateGBP
    (by simp [baseSt]) (Or.inl rfl)
    (by simp [St.findExpected, baseSt, expectedTrip])
    rfl (by norm_num)
    (by norm_num [ExpectedCost.current_norm_remaining,
      ExpectedCost.current_norm_amount, St.rateFactorD, St.findRate,
      baseSt, expectedTrip, rateGBP])
    (by simp [St.findRate, baseSt, expectedTrip, rateGBP, cutPay40])

/-! ## C2 -/

/-- Claim C2: every failing cut request returns the documented error class and
commits nothing: a validation error (status 400) for a missing,
non-positive or excessive amount, NotFound (status 404) for an unknown
expected id or an unknown supplied rate id; the persisted state is
unchanged on every failure, in particular after a cut whose supplied
rate id does not exist. -/
theorem cut_failure_no_state_change (s : St) (eid : Nat) (p : CutPayload)
    (now : DateTime) :
    (s.findExpected eid = none →
      cutFromExpected s eid p now = .error .expectedNotFound) ∧
    (∀ e, s.findExpected eid = some e → p.amount = none →
      cutFromExpected s eid p now = .error .missingAmount) ∧
    (∀ e a, s.findExpected eid = some e → p.amount = some a → a ≤ 0 →
      cutFromExpected s eid p now = .error .amountNotPositive) ∧
    (∀ e a, s.findExpected eid = some e → p.amount = some a → 0 < a →
      e.current_norm_remaining (s.rateFactorD e.rate_id) < a →
      cutFromExpected s eid p now = .error .amountExceedsRemaining) ∧
    (∀ e a rid, s.findExpected eid = some e → p.amount = some a → 0 < a →
      a ≤ e.current_norm_remaining (s.rateFactorD e.rate_id) →
      p.rate_id = some rid → rid ≠ 0 → s.findRate rid = none →
      cutFromExpected s eid p now = .error .rateNotFound) ∧
    (∀ err, cutFromExpected s eid p now = .error err →
      cutStep s eid p now = s) ∧
    CutErr.expectedNotFound.isNotFound = true ∧
    CutErr.rateNotFound.isNotFound = true ∧
    CutErr.missingAmount.status = 400 ∧
    CutErr.amountNotPositive.status = 400 ∧
    CutErr.amountExceedsRemaining.status = 400 := by
  refine ⟨?_, ?_, ?_, ?_, ?_, ?_, rfl, rfl, rfl, rfl, rfl⟩
  · intro h
    unfold cutFromExpected
    rw [h]
  · intro e hfind hnone
    unfold cutFromExpected
    rw [hfind, hnone]
  · intro e a hfind hamt ha
    unfold cutFromExpected
    rw [hfind, hamt]
    simp only [if_pos ha]
  · intro e a hfind hamt hpos hgt
    unfold cutFromExpected
    rw [hfind, hamt]
    simp only [if_neg (not_le.mpr hpos), if_pos hgt]
  · intro e a rid hfind hamt hpos hle hrid hrid0 hnorate
    unfold cutFromExpected
    rw [hfind, hamt]
    have hcut : cutRateId p e = rid := by simp [cutRateId, hrid, hrid0]
    simp only [if_neg (not_le.mpr hpos), if_neg (not_lt.mpr hle), hcut, hnorate]
  · intro err h
    unfold cutStep
    rw [h]

/-- Payload with an unknown supplied rate id, for the C2 witness. -/
def cutPayBadRate : CutPayload :=
  { amount := some 40, rate_id := some 99, description := none }

/-- Witness for C2: a cut with an unknown supplied rate id fails with
NotFound and commits nothing. -/
theorem cut_failure_no_state_change_witness :
    cutFromExpected baseSt 1 cutPayBadRate epoch = .error .rateNotFound ∧
    cutStep baseSt 1 cutPayBadRate epoch = baseSt := by
  have h := cut_failure_no_state_change baseSt 1 cutPayBadRate epoch
  have herr := h.2.2.2.2.1 expectedTrip 40 99
    (by simp [St.findExpected, baseSt, expectedTrip]) rfl (by norm_num)
    (by norm_num [ExpectedCost.current_norm_remaining,
      ExpectedCost.current_norm_amount, St.rateFactorD, St.findRate,
      baseSt, expectedTrip, rateGBP])
    rfl (by norm_num) (by simp [St.findRate, baseSt, rateGBP])
  exact ⟨herr, h.2.2.2.2.2.1 _ herr⟩

/-! ## C3 -/

def rateX10 : RateRow :=
  { id := 2, from_currency := "X", to_currency := "GBP", rate := 10,
    description := none, created := 0, updated := 0 }

def invSt0 : St :=
  { rates := [rateGBP, rateX10], incomes := [], costs := [], expecteds := [],
    target := none, next_rate_id := 3, next_income_id := 1, next_cost_id := 1,
    next_expected_id := 1 }

def invSt1 : St := createExpectedStep invSt0 100 1 "trip"

def invSt2 : St :=
  cutStep invSt1 1 { amount := some 40, rate_id := some 2, description := none }
    epoch

def invSt3 : St := deleteCostStep invSt2 1

/-- Claim C3 counterexample: create an expected cost of 100 at rate 1
(norm_amount = norm_remaining = 100), cut 40 minted against a supplied
rate of factor 10 (the created cost has norm_amount 400), then delete the
linked cost.  All three operations are in the operation list of the claim and no rate is
ever updated, yet norm_remaining ends at 460 > norm_amount = 100. -/
theorem amortization_invariant_counterexample :
    (invSt1.findExpected 1).map
      (fun e => (e.norm_remaining, e.norm_amount)) = some (100, 100) ∧
    (invSt2.findExpected 1).map (fun e => e.norm_remaining) = some 60 ∧
    (invSt3.findExpected 1).map
      (fun e => (e.norm_remaining, e.norm_amount)) = some (460, 100) ∧
    ¬ ((460 : Rat) ≤ 100) := by
  refine ⟨?_, ?_, ?_, by norm_num⟩ <;>
    norm_num [invSt3, invSt2, invSt1, invSt0, deleteCostStep, deleteCost,
      cutStep, cutFromExpected, createExpectedStep, createExpected,
      cutRateId, cutDescription, St.findExpected, St.findCost, St.findRate,
      St.rateFactorD, ExpectedCost.current_norm_remaining,
      ExpectedCost.current_norm_amount, rateGBP, rateX10]

/-- Claim C3 amended: the invariant 0 <= norm_remaining <= norm_amount is
established by create whenever the creation-time norm_amount is
nonnegative, and is preserved by every successful cut; it is NOT preserved
by deleting a linked Cost (see the counterexample), and editExpectedAmount
has the documented negative edge case. -/
theorem amortization_invariant_amended :
    (∀ (s : St) (amount : Rat) (rid : Nat) (desc : String) (rate : RateRow),
      (∀ x ∈ s.expecteds, (x.id == s.next_expected_id) = false) →
      s.findRate rid = some rate → 0 ≤ amount * rate.rate →
      ∃ s2, createExpected s amount rid desc = .ok (s2, s.next_expected_id) ∧
        ∃ e2, s2.findExpected s.next_expected_id = some e2 ∧
          0 ≤ e2.norm_remaining ∧ e2.norm_remaining ≤ e2.norm_amount) ∧
    (∀ (s : St) (eid : Nat) (p : CutPayload) (now : DateTime)
       (e : ExpectedCost) (a : Rat) (rr : RateRow),
      0 ≤ e.norm_remaining → e.norm_remaining ≤ e.norm_amount →
      s.findExpected eid = some e → p.amount = some a → 0 < a →
      a ≤ e.current_norm_remaining (s.rateFactorD e.rate_id) →
      s.findRate (cutRateId p e) = some rr →
      ∃ s2, cutFromExpected s eid p now = .ok (s2, s.next_cost_id) ∧
        ∃ e2, s2.findExpected eid = some e2 ∧
          e2.norm_amount = e.norm_amount ∧
          0 ≤ e2.norm_remaining ∧ e2.norm_remaining ≤ e2.norm_amount) := by
  constructor
  · intro s amount rid desc rate hfresh hrate hnn
    refine ⟨{ s with
               expecteds := s.expecteds ++
                 [{ id := s.next_expected_id
                    description := desc
                    amount := amount
                    currency := rate.from_currency
                    rate_id := rid
                    norm_amount := amount * rate.rate
                    norm_remaining := amount * rate.rate }]
               next_expected_id := s.next_expected_id + 1 }, ?_, ?_⟩
    · unfold createExpected
      rw [hrate]
    · refine ⟨{ id := s.next_expected_id
                description := desc
                amount := amount
                currency := rate.from_currency
                rate_id := rid
                norm_amount := amount * rate.rate
                norm_remaining := amount * rate.rate }, ?_, hnn, le_refl _⟩
      show (s.expecteds ++ _).find? _ = _
      rw [find?_append_right _ _ _ (List.find?_eq_none.mpr (by
        intro x hx
        simpa using hfresh x hx))]
      exact List.find?_cons_of_pos _ (by simp)
  · intro s eid p now e a rr hlow hup hfind hamt hpos hle hrate
    have hfind2 : s.expecteds.find? (fun x => x.id == eid) = some e := hfind
    have heid : e.id = eid := by
      have hp := List.find?_some hfind
      simpa using hp
    have hna : 0 < e.norm_amount := by
      by_contra hc
      push_neg at hc
      rw [ExpectedCost.current_norm_remaining, if_pos hc] at hle
      linarith
    have hle2 : a ≤ e.current_norm_amount (s.rateFactorD e.rate_id) *
        (e.norm_remaining / e.norm_amount) := by
      rw [ExpectedCost.current_norm_remaining, if_neg (not_le.mpr hna)] at hle
      exact hle
    have hfrac2 : 0 < e.norm_remaining / e.norm_amount := by
      have hfrac : 0 ≤ e.norm_remaining / e.norm_amount :=
        div_nonneg hlow hna.le
      rcases lt_or_eq_of_le hfrac with h | h
      · exact h
      · rw [← h, mul_zero] at hle2
        linarith
    have hcna : 0 < e.current_norm_amount (s.rateFactorD e.rate_id) := by
      rcases lt_trichotomy (e.current_norm_amount (s.rateFactorD e.rate_id)) 0
        with h | h | h
      · have hneg := mul_neg_of_neg_of_pos h hfrac2
        linarith
      · rw [h, zero_mul] at hle2
        linarith
      · exact h
    have hred_le : e.norm_amount *
        (a / e.current_norm_amount (s.rateFactorD e.rate_id)) ≤
        e.norm_remaining := by
      rw [← mul_div_assoc] at hle2
      have h1 := (le_div_iff₀ hna).mp hle2
      rw [← mul_div_assoc, div_le_iff₀ hcna]
      nlinarith
    have hred_nn : 0 ≤ e.norm_amount *
        (a / e.current_norm_amount (s.rateFactorD e.rate_id)) :=
      mul_nonneg hna.le (div_nonneg hpos.le hcna.le)
    refine ⟨_, cut_ok s eid p now e a rr hfind hamt hpos hle hrate, ?_⟩
    refine ⟨{ e with norm_remaining := e.norm_remaining - e.norm_amount *
        (if 0 < e.current_norm_amount (s.rateFactorD e.rate_id)
         then a / e.current_norm_amount (s.rateFactorD e.rate_id) else 0) },
      ?_, rfl, ?_, ?_⟩
    · exact find?_map_update (fun x => x.id) eid
        (fun _ => { e with norm_remaining := e.norm_remaining - e.norm_amount *
            (if 0 < e.current_norm_amount (s.rateFactorD e.rate_id)
             then a / e.current_norm_amount (s.rateFactorD e.rate_id) else 0) })
        s.expecteds e hfind2 heid
    · show (0 : Rat) ≤ e.norm_remaining - e.norm_amount *
        (if 0 < e.current_norm_amount (s.rateFactorD e.rate_id)
         then a / e.current_norm_amount (s.rateFactorD e.rate_id) else 0)
      rw [if_pos hcna]
      linarith
    · show e.norm_remaining - e.norm_amount *
        (if 0 < e.current_norm_amount (s.rateFactorD e.rate_id)
         then a / e.current_norm_amount (s.rateFactorD e.rate_id) else 0) ≤
        e.norm_amount
      rw [if_pos hcna]
      linarith

/-- Witness for the amended C3 at the fixture state: creating an expected
cost of 50 at rate 1 establishes the invariant. -/
theorem amortization_invariant_amended_witness :
    ∃ s2, createExpected baseSt 50 1 "deposit" = .ok (s2, baseSt.next_expected_id) ∧
      ∃ e2, s2.findExpected baseSt.next_expected_id = some e2 ∧
        0 ≤ e2.norm_remaining ∧ e2.norm_remaining ≤ e2.norm_amount :=
  amortization_invariant_amended.1 baseSt 50 1 "deposit" rateGBP
    (by simp [baseSt, expectedTrip])
    (by simp [St.findRate, baseSt, rateGBP])
    (by norm_num [rateGBP])

/-! ## C4 -/

/-- The record prescribed by the edit law of section 4.3: optional description and amount
updates, norm_amount recomputed from the live rate, norm_remaining from
the frozen paid part. -/
def specEditedExpected (s : St) (d : ExpectedUpdate) (e : ExpectedCost) :
    ExpectedCost :=
  { e with
    description := d.description.getD e.description
    amount := d.amount.getD e.amount
    norm_amount := d.amount.getD e.amount * s.rateFactorD e.rate_id
    norm_remaining := d.amount.getD e.amount * s.rateFactorD e.rate_id -
      (e.norm_amount - e.norm_remaining) }

/-- Shape of a successful expected-cost edit: the committed record is
exactly the one the edit law prescribes. -/
theorem updateExpected_ok (s : St) (eid : Nat) (d : ExpectedUpdate)
    (e : ExpectedCost)
    (hfind : s.findExpected eid = some e)
    (hpos : ∀ x, d.amount = some x → 0 < x) :
    updateExpected s eid d =
      .ok ({ s with
              expecteds := s.expecteds.map (fun x =>
                if x.id == eid then specEditedExpected s d e else x) }) := by
  obtain ⟨dd, da⟩ := d
  cases da with
  | none => cases dd <;> simp [updateExpected, hfind, specEditedExpected]
  | some na =>
    have hna : 0 < na := hpos na rfl
    cases dd <;>
      simp [updateExpected, hfind, not_le.mpr hna, specEditedExpected]

/-- Claim C4: editExpectedAmount, with or without a new amount (also when only
the description changes), sets norm_amount to amount times the current
live rate factor and norm_remaining to the new norm_amount minus the paid
part frozen at the edit; the referenced rate is unchanged. -/
theorem update_expected_resamples_rate (s : St) (eid : Nat)
    (d : ExpectedUpdate) (e : ExpectedCost)
    (hfind : s.findExpected eid = some e)
    (hpos : ∀ x, d.amount = some x → 0 < x) :
    ∃ s2, updateExpected s eid d = .ok s2 ∧
      ∃ e2, s2.findExpected eid = some e2 ∧
        e2.rate_id = e.rate_id ∧
        e2.amount = d.amount.getD e.amount ∧
        e2.norm_amount = d.amount.getD e.amount * s.rateFactorD e.rate_id ∧
        e2.norm_remaining = e2.norm_amount -
          (e.norm_amount - e.norm_remaining) := by
  have hfind2 : s.expecteds.find? (fun x => x.id == eid) = some e := hfind
  have heid : e.id = eid := by
    have hp := List.find?_some hfind
    simpa using hp
  refine ⟨_, updateExpected_ok s eid d e hfind hpos, ?_⟩
  refine ⟨specEditedExpected s d e, ?_, rfl, rfl, rfl, rfl⟩
  exact find?_map_update (fun x => x.id) eid
    (fun _ => specEditedExpected s d e) s.expecteds e hfind2 heid

/-- Description-only edit payload for the C4 witness. -/
def editDescOnly : ExpectedUpdate :=
  { description := some "renamed", amount := none }

/-- Witness for C4: a description-only edit still recomputes both
normalized fields from the live rate. -/
theorem update_expected_resamples_rate_witness :
    ∃ s2, updateExpected baseSt 1 editDescOnly = .ok s2 ∧
      ∃ e2, s2.findExpected 1 = some e2 ∧
        e2.rate_id = expectedTrip.rate_id ∧
        e2.amount = editDescOnly.amount.getD expectedTrip.amount ∧
        e2.norm_amount = editDescOnly.amount.getD expectedTrip.amount *
          baseSt.rateFactorD expectedTrip.rate_id ∧
        e2.norm_remaining = e2.norm_amount -
          (expectedTrip.norm_amount - expectedTrip.norm_remaining) :=
  update_expected_resamples_rate baseSt 1 editDescOnly expectedTrip
    (by simp [St.findExpected, baseSt, expectedTrip])
    (by intro x hx; simp [editDescOnly] at hx)

/-! ## C5 -/

def rateEUR2 : RateRow :=
  { id := 1, from_currency := "EUR", to_currency := "GBP", rate := 2,
    description := none, created := 0, updated := 0 }

def rtSt0 : St :=
  { rates := [rateEUR2], incomes := [], costs := [], expecteds := [],
    target := none, next_rate_id := 2, next_income_id := 1, next_cost_id := 1,
    next_expected_id := 1 }

def rtSt1 : St := createExpectedStep rtSt0 100 1 "gear"

def rtSt2 : St :=
  cutStep rtSt1 1 { amount := some 40, rate_id := none, description := none }
    epoch

def rtSt3 : St := deleteCostStep rtSt2 1

/-- Claim C5 counterexample: an expected cost of 100 created at factor 2 has
norm_remaining 200; cutting 40 at the same, unchanged rate leaves 160 and
mints a cost with norm_amount 80; deleting that cost yields 240, not the
200 held before the cut, although the referenced rate factor never
changed. -/
theorem cut_delete_round_trip_counterexample :
    (rtSt1.findExpected 1).map (fun e => e.norm_remaining) = some 200 ∧
    (rtSt2.findExpected 1).map (fun e => e.norm_remaining) = some 160 ∧
    (rtSt2.findCost 1).map (fun c => c.norm_amount) = some 80 ∧
    rtSt3.rates = rtSt1.rates ∧
    (rtSt3.findExpected 1).map (fun e => e.norm_remaining) = some 240 ∧
    (240 : Rat) ≠ 200 := by
  refine ⟨?_, ?_, ?_, ?_, ?_, by norm_num⟩ <;>
    norm_num [rtSt3, rtSt2, rtSt1, rtSt0, deleteCostStep, deleteCost,
      cutStep, cutFromExpected, createExpectedStep, createExpected,
      cutRateId, cutDescription, St.findExpected, St.findCost, St.findRate,
      St.rateFactorD, ExpectedCost.current_norm_remaining,
      ExpectedCost.current_norm_amount, rateEUR2]

/-- Positivity facts forced by a successful cut on an expected cost whose
stored remaining is nonnegative. -/
theorem cut_bounds (e : ExpectedCost) (f a : Rat)
    (hlow : 0 ≤ e.norm_remaining) (hpos : 0 < a)
    (hle : a ≤ e.current_norm_remaining f) :
    0 < e.norm_amount ∧ 0 < e.current_norm_amount f := by
  have hna : 0 < e.norm_amount := by
    by_contra hc
    push_neg at hc
    rw [ExpectedCost.current_norm_remaining, if_pos hc] at hle
    linarith
  have hle2 : a ≤ e.current_norm_amount f *
      (e.norm_remaining / e.norm_amount) := by
    rw [ExpectedCost.current_norm_remaining, if_neg (not_le.mpr hna)] at hle
    exact hle
  have hfrac2 : 0 < e.norm_remaining / e.norm_amount := by
    have hfrac : 0 ≤ e.norm_remaining / e.norm_amount :=
      div_nonneg hlow hna.le
    rcases lt_or_eq_of_le hfrac with h | h
    · exact h
    · rw [← h, mul_zero] at hle2
      linarith
  refine ⟨hna, ?_⟩
  rcases lt_trichotomy (e.current_norm_amount f) 0 with h | h | h
  · have hneg := mul_neg_of_neg_of_pos h hfrac2
    linarith
  · rw [h, zero_mul] at hle2
    linarith
  · exact h

/-- Shape of a successful cost deletion with a linked expected cost: the
stored norm_amount is added back and the cost row removed. -/
theorem deleteCost_ok (s : St) (cid : Nat) (c : Cost) (eid2 : Nat)
    (hfind : s.findCost cid = some c)
    (href : c.expected_ref_id = some eid2) :
    deleteCost s cid =
      .ok ({ s with
              expecteds := s.expecteds.map (fun x =>
                if x.id == eid2 then
                  { x with norm_remaining := x.norm_remaining + c.norm_amount }
                else x)
              costs := s.costs.filter (fun x => !(x.id == cid)) }) := by
  simp [deleteCost, hfind, href]

/-- Claim C5 amended: cut followed by deleting the created cost restores the
stored norm_remaining exactly when the stored norm_amount equals amount
times the square of the live factor of the own, unchanged rate of the
expected cost — in particular at factor 1 with norm_amount = amount, the situation
of the GBP example of the spec.  In general the cut subtracts
norm_amount * a / (amount * factor) while the delete adds back a * factor,
and these differ. -/
theorem cut_delete_round_trip_amended (s : St) (eid : Nat) (now : DateTime)
    (e : ExpectedCost) (a : Rat) (rr : RateRow)
    (hfreshC : ∀ c ∈ s.costs, (c.id == s.next_cost_id) = false)
    (hfind : s.findExpected eid = some e)
    (hrow : s.findRate e.rate_id = some rr)
    (hsq : e.norm_amount = e.amount * rr.rate * rr.rate)
    (hlow : 0 ≤ e.norm_remaining)
    (hpos : 0 < a)
    (hle : a ≤ e.current_norm_remaining (s.rateFactorD e.rate_id)) :
    ∃ s2, cutFromExpected s eid ⟨some a, none, none⟩ now =
        .ok (s2, s.next_cost_id) ∧
      ∃ s3, deleteCost s2 s.next_cost_id = .ok s3 ∧
        ∃ e3, s3.findExpected eid = some e3 ∧
          e3.norm_remaining = e.norm_remaining := by
  have heid : e.id = eid := by
    have hp := List.find?_some hfind
    simpa using hp
  subst heid
  have hfind2 : s.expecteds.find? (fun x => x.id == e.id) = some e := hfind
  have hf : s.rateFactorD e.rate_id = rr.rate := by
    simp [St.rateFactorD, hrow]
  have hrate : s.findRate (cutRateId ⟨some a, none, none⟩ e) = some rr := hrow
  obtain ⟨hna, hcna⟩ := cut_bounds e (s.rateFactorD e.rate_id) a hlow hpos hle
  refine ⟨_, cut_ok s e.id ⟨some a, none, none⟩ now e a rr hfind rfl hpos hle
    hrate, ?_⟩
  refine ⟨_, deleteCost_ok _ s.next_cost_id
    (⟨s.next_cost_id, now, cutDescription ⟨some a, none, none⟩ e, a,
      rr.from_currency, cutRateId ⟨some a, none, none⟩ e, a * rr.rate,
      rr.rate, some e.id⟩ : Cost) e.id ?_ rfl, ?_⟩
  case _ =>
    show (s.costs ++ _).find? _ = _
    rw [find?_append_right _ _ _ (List.find?_eq_none.mpr (by
      intro x hx
      simpa using hfreshC x hx))]
    exact List.find?_cons_of_pos _ (by simp)
  have hstep1 := find?_map_update (fun x => x.id) e.id
    (fun _ => { e with norm_remaining := e.norm_remaining - e.norm_amount *
        (if 0 < e.current_norm_amount (s.rateFactorD e.rate_id)
         then a / e.current_norm_amount (s.rateFactorD e.rate_id) else 0) })
    s.expecteds e hfind2 rfl
  have hstep2 := find?_map_update (fun (x : ExpectedCost) => x.id) e.id
    (fun x => { x with norm_remaining := x.norm_remaining + a * rr.rate })
    (s.expecteds.map (fun x =>
      if x.id == e.id then
        { e with norm_remaining := e.norm_remaining - e.norm_amount *
            (if 0 < e.current_norm_amount (s.rateFactorD e.rate_id)
             then a / e.current_norm_amount (s.rateFactorD e.rate_id) else 0) }
      else x))
    { e with norm_remaining := e.norm_remaining - e.norm_amount *
        (if 0 < e.current_norm_amount (s.rateFactorD e.rate_id)
         then a / e.current_norm_amount (s.rateFactorD e.rate_id) else 0) }
    hstep1 rfl
  refine ⟨{ e with norm_remaining := (e.norm_remaining - e.norm_amount *
      (if 0 < e.current_norm_amount (s.rateFactorD e.rate_id)
       then a / e.current_norm_amount (s.rateFactorD e.rate_id) else 0)) +
      a * rr.rate }, ?_, ?_⟩
  · exact hstep2
  · show e.norm_remaining - e.norm_amount *
        (if 0 < e.current_norm_amount (s.rateFactorD e.rate_id)
         then a / e.current_norm_amount (s.rateFactorD e.rate_id) else 0) +
        a * rr.rate = e.norm_remaining
    rw [if_pos hcna]
    rw [ExpectedCost.current_norm_amount, hf] at hcna ⊢
    have hne : e.amount * rr.rate ≠ 0 := ne_of_gt hcna
    rw [hsq]
    field_simp
    ring

/-- Witness for the amended C5: at factor 1 with norm_amount = amount
(the own example of the spec), cutting 40 and deleting the minted cost restores
norm_remaining = 100. -/
theorem cut_delete_round_trip_amended_witness :
    ∃ s2, cutFromExpected baseSt 1 ⟨some 40, none, none⟩ epoch =
        .ok (s2, baseSt.next_cost_id) ∧
      ∃ s3, deleteCost s2 baseSt.next_cost_id = .ok s3 ∧
        ∃ e3, s3.findExpected 1 = some e3 ∧
          e3.norm_remaining = expectedTrip.norm_remaining :=
  cut_delete_round_trip_amended baseSt 1 epoch expectedTrip 40 rateGBP
    (by simp [baseSt])
    (by simp [St.findExpected, baseSt, expectedTrip])
    (by simp [St.findRate, baseSt, expectedTrip, rateGBP])
    (by norm_num [expectedTrip, rateGBP])
    (by norm_num [expectedTrip])
    (by norm_num)
    (by norm_num [ExpectedCost.current_norm_remaining,
      ExpectedCost.current_norm_amount, St.rateFactorD, St.findRate,
      baseSt, expectedTrip, rateGBP])

/-! ## C10 -/

/-- Claim C10: for an expected cost with positive stored norm_amount and
positive live current_norm_amount, a successful cut of a decreases the
derived live current_norm_remaining, read at the same live factor, by
exactly a — although the stored norm_remaining decreases by
norm_amount * a / current_norm_amount instead. -/
theorem cut_decrements_live_remaining (s : St) (eid : Nat) (p : CutPayload)
    (now : DateTime) (e : ExpectedCost) (a : Rat) (rr : RateRow)
    (hna : 0 < e.norm_amount)
    (hcna : 0 < e.current_norm_amount (s.rateFactorD e.rate_id))
    (hfind : s.findExpected eid = some e)
    (hamt : p.amount = some a)
    (hpos : 0 < a)
    (hle : a ≤ e.current_norm_remaining (s.rateFactorD e.rate_id))
    (hrate : s.findRate (cutRateId p e) = some rr) :
    ∃ s2, cutFromExpected s eid p now = .ok (s2, s.next_cost_id) ∧
      ∃ e2, s2.findExpected eid = some e2 ∧
        e2.current_norm_remaining (s.rateFactorD e.rate_id) =
          e.current_norm_remaining (s.rateFactorD e.rate_id) - a ∧
        e2.norm_remaining = e.norm_remaining -
          e.norm_amount * a /
            e.current_norm_amount (s.rateFactorD e.rate_id) := by
  have heid : e.id = eid := by
    have hp := List.find?_some hfind
    simpa using hp
  subst heid
  have hfind2 : s.expecteds.find? (fun x => x.id == e.id) = some e := hfind
  refine ⟨_, cut_ok s e.id p now e a rr hfind hamt hpos hle hrate, ?_⟩
  refine ⟨{ e with norm_remaining := e.norm_remaining - e.norm_amount *
      (if 0 < e.current_norm_amount (s.rateFactorD e.rate_id)
       then a / e.current_norm_amount (s.rateFactorD e.rate_id) else 0) },
    ?_, ?_, ?_⟩
  · exact find?_map_update (fun x => x.id) e.id
      (fun _ => { e with norm_remaining := e.norm_remaining - e.norm_amount *
          (if 0 < e.current_norm_amount (s.rateFactorD e.rate_id)
           then a / e.current_norm_amount (s.rateFactorD e.rate_id) else 0) })
      s.expecteds e hfind2 rfl
  · simp only [ExpectedCost.current_norm_remaining,
      ExpectedCost.current_norm_amount] at hcna ⊢
    rw [if_pos hcna, if_neg (not_le.mpr hna), if_neg (not_le.mpr hna)]
    field_simp
    ring
  · simp only [if_pos hcna, mul_div_assoc]

/-- Witness for C10 at the fixture state: cutting 40 lowers the live
remaining from 100 to 60. -/
theorem cut_decrements_live_remaining_witness :
    ∃ s2, cutFromExpected baseSt 1 cutPay40 epoch =
        .ok (s2, baseSt.next_cost_id) ∧
      ∃ e2, s2.findExpected 1 = some e2 ∧
        e2.current_norm_remaining (baseSt.rateFactorD expectedTrip.rate_id) =
          expectedTrip.current_norm_remaining
            (baseSt.rateFactorD expectedTrip.rate_id) - 40 ∧
        e2.norm_remaining = expectedTrip.norm_remaining -
          expectedTrip.norm_amount * 40 /
            expectedTrip.current_norm_amount
              (baseSt.rateFactorD expectedTrip.rate_id) :=
  cut_decrements_live_remaining baseSt 1 cutPay40 epoch expectedTrip 40 rateGBP
    (by norm_num [expectedTrip])
    (by norm_num [ExpectedCost.current_norm_amount, St.rateFactorD,
      St.findRate, baseSt, expectedTrip, rateGBP])
    (by simp [St.findExpected, baseSt, expectedTrip])
    rfl (by norm_num)
    (by norm_num [ExpectedCost.current_norm_remaining,
      ExpectedCost.current_norm_amount, St.rateFactorD, St.findRate,
      baseSt, expectedTrip, rateGBP])
    (by simp [St.findRate, baseSt, expectedTrip, rateGBP, cutRateId,
      cutPay40])

/-! ## C7 -/

/-- A CNB feed refresh rewrites only the rate table: income rows are
untouched. -/
theorem updateCnbRates_incomes (now : Nat) (m : List (String × Rat))
    (s : St) : (updateCnbRates now m s).incomes = s.incomes := by
  simp only [updateCnbRates]
  split <;> rfl

/-- Claim C7: add_income stores norm_amount = amount * factor and the factor
snapshot; later feed refreshes leave the stored row untouched; a read of
current_norm_amount is pure and returns the frozen norm_amount in fixed
mode, and amount times the live factor in dynamic mode. -/
theorem add_income_normalization (s : St) (now : DateTime)
    (p : IncomePayload) (rr : RateRow)
    (hfreshI : ∀ i ∈ s.incomes, (i.id == s.next_income_id) = false)
    (hrow : s.findRate p.rate_id = some rr) :
    ∃ s2, addIncome s now p = .ok (s2, s.next_income_id) ∧
      ∃ i, s2.findIncome s.next_income_id = some i ∧
        i.amount = p.amount ∧
        i.norm_amount = p.amount * rr.rate ∧
        i.norm_rate = rr.rate ∧
        i.fixed_rate = p.fixed_rate ∧
        (∀ now2 m, (updateCnbRates now2 m s2).findIncome s.next_income_id =
          some i) ∧
        (p.fixed_rate = true →
          ∀ g, i.current_norm_amount g = p.amount * rr.rate) ∧
        (p.fixed_rate = false →
          ∀ g, i.current_norm_amount g = p.amount * g) := by
  have hnone : s.incomes.find? (fun x => x.id == s.next_income_id) = none :=
    List.find?_eq_none.mpr (by
      intro x hx
      simpa using hfreshI x hx)
  refine ⟨{ s with
             incomes := s.incomes ++
               [{ id := s.next_income_id
                  date := p.date.getD now
                  description := p.description
                  amount := p.amount
                  currency := rr.from_currency
                  rate_id := p.rate_id
                  norm_amount := p.amount * rr.rate
                  norm_rate := rr.rate
                  fixed_rate := p.fixed_rate }]
             next_income_id := s.next_income_id + 1 }, ?_, ?_⟩
  · unfold addIncome
    rw [hrow]
  · have hfindi : (s.incomes ++
        [({ id := s.next_income_id
            date := p.date.getD now
            description := p.description
            amount := p.amount
            currency := rr.from_currency
            rate_id := p.rate_id
            norm_amount := p.amount * rr.rate
            norm_rate := rr.rate
            fixed_rate := p.fixed_rate } : Income)]).find?
        (fun x => x.id == s.next_income_id) =
        some { id := s.next_income_id
               date := p.date.getD now
               description := p.description
               amount := p.amount
               currency := rr.from_currency
               rate_id := p.rate_id
               norm_amount := p.amount * rr.rate
               norm_rate := rr.rate
               fixed_rate := p.fixed_rate } := by
      rw [find?_append_right _ _ _ hnone]
      exact List.find?_cons_of_pos _ (by simp)
    refine ⟨_, hfindi, rfl, rfl, rfl, rfl, ?_, ?_, ?_⟩
    · intro now2 m
      show (updateCnbRates now2 m _).incomes.find? _ = _
      rw [updateCnbRates_incomes]
      exact hfindi
    · intro hfix g
      simp [Income.current_norm_amount, hfix]
    · intro hfix g
      simp [Income.current_norm_amount, hfix]

/-- Income payload for the C7 witness. -/
def payIncome : IncomePayload :=
  { amount := 50, rate_id := 1, description := "salary", fixed_rate := true,
    date := none }

/-- Witness for C7 at the fixture state. -/
theorem add_income_normalization_witness :
    ∃ s2, addIncome baseSt epoch payIncome = .ok (s2, baseSt.next_income_id) ∧
      ∃ i, s2.findIncome baseSt.next_income_id = some i ∧
        i.amount = payIncome.amount ∧
        i.norm_amount = payIncome.amount * rateGBP.rate ∧
        i.norm_rate = rateGBP.rate ∧
        i.fixed_rate = payIncome.fixed_rate ∧
        (∀ now2 m,
          (updateCnbRates now2 m s2).findIncome baseSt.next_income_id =
            some i) ∧
        (payIncome.fixed_rate = true →
          ∀ g, i.current_norm_amount g = payIncome.amount * rateGBP.rate) ∧
        (payIncome.fixed_rate = false →
          ∀ g, i.current_norm_amount g = payIncome.amount * g) :=
  add_income_normalization baseSt epoch payIncome rateGBP
    (by simp [baseSt])
    (by simp [St.findRate, baseSt, rateGBP, payIncome])

/-! ## C8 -/

/-- Claim C8: the balance read returns total_income − (total_costs +
total_expected_remaining) built from live-or-frozen incomes, stored cost
norms and live expected remainders; the four home-currency fields are the
same totals scaled by the live base-to-home factor when that rate row
exists, and are absent — not zero — when it does not. -/
theorem get_balance_formula (s : St) :
    (getBalance s).balance =
      totalIncome s - (totalCosts s + totalExpectedRemaining s) ∧
    (getBalance s).total_income = totalIncome s ∧
    (getBalance s).total_costs = totalCosts s ∧
    (getBalance s).total_expected_remaining = totalExpectedRemaining s ∧
    (getBalance s).balance_czk =
      (czkRateRow s).map (fun r => (getBalance s).balance * r.rate) ∧
    (getBalance s).total_income_czk =
      (czkRateRow s).map (fun r => totalIncome s * r.rate) ∧
    (getBalance s).total_costs_czk =
      (czkRateRow s).map (fun r => totalCosts s * r.rate) ∧
    (getBalance s).total_expected_remaining_czk =
      (czkRateRow s).map (fun r => totalExpectedRemaining s * r.rate) := by
  unfold getBalance
  rcases hr : czkRateRow s with _ | r <;> simp [hr]

/-! ## C9 -/

def octNow : DateTime := (2026, 10, 12, 0)

def incomeOct : Income :=
  { id := 1, date := (2026, 10, 5, 0), description := "pay", amount := 10,
    currency := "GBP", rate_id := 1, norm_amount := 10, norm_rate := 1,
    fixed_rate := true }

def expectedOct : ExpectedCost :=
  { id := 1, description := "trip", amount := 50, currency := "GBP",
    rate_id := 1, norm_amount := 50, norm_remaining := 50 }

def monthSt : St :=
  { rates := [rateGBP], incomes := [incomeOct], costs := [],
    expecteds := [expectedOct], target := none, next_rate_id := 2,
    next_income_id := 2, next_cost_id := 1, next_expected_id := 2 }

/-- Claim C9 counterexample: in a month holding one income of 10, no costs, and
an expected cost with live remaining 50, the monthly summary reports
balance 10 = income − costs, while the formula of the claim
income − (costs + expected remaining) gives −40; the overall balance read
does subtract the expected remainder and returns −40, so the monthly
balance is not the overall formula restricted to the month. -/
theorem monthly_summary_counterexample :
    (getMonthlySummary monthSt 1 octNow).map
      (fun e => (e.income, e.costs, e.balance)) = [(10, 0, 10)] ∧
    totalExpectedRemaining monthSt = 50 ∧
    (getBalance monthSt).balance = -40 ∧
    (10 : Rat) ≠ 10 - (0 + 50) := by
  refine ⟨?_, ?_, ?_, by norm_num⟩
  · simp [getMonthlySummary, List.range_succ, monthEntry, normYM,
      monthIncomes, monthCosts, dtLe, firstDayOfMonth, lastDayOfMonth,
      daysInMonth, isLeapYear, St.incomeLive, Income.current_norm_amount,
      St.rateFactorD, St.findRate, monthSt, incomeOct, expectedOct, rateGBP,
      octNow]
  · norm_num [totalExpectedRemaining, St.expectedLiveRemaining,
      ExpectedCost.current_norm_remaining, ExpectedCost.current_norm_amount,
      St.rateFactorD, St.findRate, monthSt, expectedOct, rateGBP]
  · simp [getBalance, totalIncome, totalCosts, totalExpectedRemaining,
      czkRateRow, St.incomeLive, St.expectedLiveRemaining,
      Income.current_norm_amount, ExpectedCost.current_norm_remaining,
      ExpectedCost.current_norm_amount, St.rateFactorD, St.findRate,
      monthSt, incomeOct, expectedOct, rateGBP, BASE_CURRENCY]
    norm_num

/-- Claim C9 amended: every monthly summary entry satisfies
balance = income − costs over the transactions dated within the month
window, with no expected-remaining term; cost_diff is target − costs
when a target is persisted. -/
theorem monthly_summary_balance (s : St) (now : DateTime)
    (months_back i : Nat) (hi : i < months_back) :
    (getMonthlySummary s months_back now)[i]? = some (monthEntry s now i) ∧
    (monthEntry s now i).balance =
      (monthEntry s now i).income - (monthEntry s now i).costs ∧
    (monthEntry s now i).income =
      ((monthIncomes s (monthEntry s now i).year
        (monthEntry s now i).month).map (fun inc => s.incomeLive inc)).sum ∧
    (monthEntry s now i).costs =
      ((monthCosts s (monthEntry s now i).year
        (monthEntry s now i).month).map (fun c => c.norm_amount)).sum ∧
    (monthEntry s now i).target_costs = s.target ∧
    (monthEntry s now i).cost_diff =
      ((monthEntry s now i).target_costs).map
        (fun t => t - (monthEntry s now i).costs) := by
  refine ⟨?_, rfl, rfl, rfl, rfl, rfl⟩
  rw [getMonthlySummary, List.getElem?_map, List.getElem?_range hi]
  rfl

/-- Witness for the amended C9 at the fixture month state. -/
theorem monthly_summary_balance_witness :
    (getMonthlySummary monthSt 1 octNow)[0]? =
      some (monthEntry monthSt octNow 0) ∧
    (monthEntry monthSt octNow 0).balance =
      (monthEntry monthSt octNow 0).income -
        (monthEntry monthSt octNow 0).costs ∧
    (monthEntry monthSt octNow 0).income =
      ((monthIncomes monthSt (monthEntry monthSt octNow 0).year
        (monthEntry monthSt octNow 0).month).map
          (fun inc => monthSt.incomeLive inc)).sum ∧
    (monthEntry monthSt octNow 0).costs =
      ((monthCosts monthSt (monthEntry monthSt octNow 0).year
        (monthEntry monthSt octNow 0).month).map
          (fun c => c.norm_amount)).sum ∧
    (monthEntry monthSt octNow 0).target_costs = monthSt.target ∧
    (monthEntry monthSt octNow 0).cost_diff =
      ((monthEntry monthSt octNow 0).target_costs).map
        (fun t => t - (monthEntry monthSt octNow 0).costs) :=
  monthly_summary_balance monthSt octNow 1 0 (by norm_num)

/-! ## C6: dictionary lemmas -/

theorem dict_map_lookup_self (d : List (RateKey × Rat)) (k : RateKey)
    (v : Rat) (h : d.any (fun q => q.1 == k) = true) :
    dictLookup (d.map (fun q => if q.1 == k then (k, v) else q)) k =
      some v := by
  induction d with
  | nil => simp at h
  | cons p d ih =>
    by_cases hp : (p.1 == k) = true
    · simp only [List.map_cons, if_pos hp, dictLookup, List.find?_cons,
        beq_self_eq_true]
      rfl
    · have hpf : (p.1 == k) = false := by simpa using hp
      simp only [List.any_cons, hpf, Bool.false_or] at h
      simp only [List.map_cons, hpf, Bool.false_eq_true, if_false,
        dictLookup, List.find?_cons]
      exact ih h

theorem dict_map_lookup_ne (d : List (RateKey × Rat)) (k k' : RateKey)
    (v : Rat) (h : k' ≠ k) :
    dictLookup (d.map (fun q => if q.1 == k then (k, v) else q)) k' =
      dictLookup d k' := by
  induction d with
  | nil => simp [dictLookup]
  | cons p d ih =>
    by_cases hp : (p.1 == k) = true
    · have hpk : p.1 = k := eq_of_beq hp
      have hk : (k == k') = false := beq_eq_false_iff_ne.mpr (Ne.symm h)
      have hk2 : (p.1 == k') = false := by rw [hpk]; exact hk
      simp only [List.map_cons, if_pos hp, dictLookup, List.find?_cons, hk,
        hk2]
      exact ih
    · simp only [List.map_cons, if_neg hp, dictLookup, List.find?_cons]
      by_cases hq : (p.1 == k') = true
      · simp [hq]
      · simp only [Bool.not_eq_true] at hq
        simp only [hq]
        exact ih

theorem dictInsert_lookup_self (d : List (RateKey × Rat)) (k : RateKey)
    (v : Rat) : dictLookup (dictInsert d k v) k = some v := by
  unfold dictInsert
  by_cases h : d.any (fun q => q.1 == k) = true
  · rw [if_pos h]
    exact dict_map_lookup_self d k v h
  · rw [if_neg h]
    unfold dictLookup
    rw [find?_append_right _ _ _ (List.find?_eq_none.mpr (by
      intro q hq
      have h2 := List.any_eq_false.mp (Bool.eq_false_iff.mpr h) q hq
      simpa using h2))]
    simp

theorem dictInsert_lookup_ne (d : List (RateKey × Rat)) (k k' : RateKey)
    (v : Rat) (h : k' ≠ k) :
    dictLookup (dictInsert d k v) k' = dictLookup d k' := by
  unfold dictInsert
  by_cases hd : d.any (fun q => q.1 == k) = true
  · rw [if_pos hd]
    exact dict_map_lookup_ne d k k' v h
  · rw [if_neg hd]
    unfold dictLookup
    rw [List.find?_append]
    have h2 : ([(k, v)].find? (fun q => q.1 == k')) = none := by
      simp [beq_eq_false_iff_ne.mpr (Ne.symm h)]
    rw [h2, Option.or_none]

theorem dictInsert_keys_nodup (d : List (RateKey × Rat)) (k : RateKey)
    (v : Rat) (h : (d.map Prod.fst).Nodup) :
    ((dictInsert d k v).map Prod.fst).Nodup := by
  unfold dictInsert
  by_cases hd : d.any (fun q => q.1 == k) = true
  · rw [if_pos hd, List.map_map]
    have h2 : ∀ q ∈ d,
        (Prod.fst ∘ fun q => if q.1 == k then (k, v) else q) q =
          Prod.fst q := by
      intro q hq
      by_cases hp : (q.1 == k) = true
      · simp [Function.comp, hp, eq_of_beq hp]
      · simp [Function.comp, hp]
    rw [List.map_congr_left h2]
    exact h
  · rw [if_neg hd, List.map_append]
    have hk : k ∉ d.map Prod.fst := by
      intro hmem
      obtain ⟨q, hq, hq2⟩ := List.mem_map.mp hmem
      have h2 := List.any_eq_false.mp (Bool.eq_false_iff.mpr hd) q hq
      simp [hq2] at h2
    simp only [List.nodup_append, List.map_cons, List.map_nil]
    refine ⟨h, List.nodup_singleton _, ?_⟩
    intro x hx
    simp only [List.mem_singleton]
    intro hxk
    exact hk (hxk ▸ hx)

/-- A property preserved by every fold step holds of the fold. -/
theorem foldl_preserve {α β : Type} (P : β → Prop) (f : β → α → β)
    (l : List α) (b : β) (hb : P b)
    (hf : ∀ b a, a ∈ l → P b → P (f b a)) : P (l.foldl f b) := by
  induction l generalizing b with
  | nil => exact hb
  | cons a l ih =>
    exact ih (f b a) (hf b a (by simp) hb)
      (fun b2 a2 ha2 hb2 => hf b2 a2 (by simp [ha2]) hb2)

/-- The parsed feed dictionary has pairwise distinct keys. -/
theorem fetch_keys_nodup (m : List (String × Rat)) :
    ((fetchCnbRates m).map Prod.fst).Nodup := by
  unfold fetchCnbRates
  have hcross : ((genCrossRates m).map Prod.fst).Nodup := by
    unfold genCrossRates
    refine foldl_preserve
      (fun (d : List (RateKey × Rat)) => (d.map Prod.fst).Nodup) _ m [] ?_ ?_
    · simp
    · intro d p1 _ hd
      refine foldl_preserve
        (fun (d : List (RateKey × Rat)) => (d.map Prod.fst).Nodup) _ m d hd
        ?_
      intro d2 p2 _ hd2
      by_cases hc : p1.1 ≠ p2.1
      · simp only [if_pos hc]
        exact dictInsert_keys_nodup _ _ _ (dictInsert_keys_nodup _ _ _ hd2)
      · simp only [if_neg hc]
        exact hd2
  unfold genExactRates
  refine foldl_preserve
    (fun (d : List (RateKey × Rat)) => (d.map Prod.fst).Nodup) _ m _ hcross
    ?_
  intro d p _ hd
  exact dictInsert_keys_nodup _ _ _ (dictInsert_keys_nodup _ _ _ hd)

/-- The exact-rate loop leaves the two GBP/CZK keys alone when the feed
does not list GBP. -/
theorem genExact_lookup_frame (m : List (String × Rat))
    (d : List (RateKey × Rat)) (h : "GBP" ∉ m.map Prod.fst) :
    dictLookup (genExactRates m d) ("GBP", "CZK") =
      dictLookup d ("GBP", "CZK") ∧
    dictLookup (genExactRates m d) ("CZK", "GBP") =
      dictLookup d ("CZK", "GBP") := by
  revert d h
  induction m with
  | nil => exact fun d h => ⟨rfl, rfl⟩
  | cons p m ih =>
    intro d h
    have hc : p.1 ≠ "GBP" := by
      intro hc
      exact h (by simp [hc])
    have h2 : "GBP" ∉ m.map Prod.fst := by
      intro h2
      exact h (by simp [h2])
    have hcons : genExactRates (p :: m) d = genExactRates m
        (dictInsert (dictInsert d (p.1, "CZK") p.2) ("CZK", p.1)
          (1 / p.2)) := rfl
    rw [hcons]
    obtain ⟨ih1, ih2⟩ := ih (dictInsert (dictInsert d (p.1, "CZK") p.2)
      ("CZK", p.1) (1 / p.2)) h2
    constructor
    · rw [ih1, dictInsert_lookup_ne _ _ _ _ (by simp),
        dictInsert_lookup_ne _ _ _ _ (by simp [Ne.symm hc])]
    · rw [ih2, dictInsert_lookup_ne _ _ _ _ (by simp [Ne.symm hc]),
        dictInsert_lookup_ne _ _ _ _ (by simp)]

/-- After the exact-rate loop, the GBP entry of the feed fixes both GBP/CZK
directions as exact inverses. -/
theorem genExact_lookup_gbp (m : List (String × Rat))
    (d : List (RateKey × Rat)) (g : Rat)
    (hmem : ("GBP", g) ∈ m) (hnd : (m.map Prod.fst).Nodup) :
    dictLookup (genExactRates m d) ("GBP", "CZK") = some g ∧
    dictLookup (genExactRates m d) ("CZK", "GBP") = some (1 / g) := by
  revert d hmem hnd
  induction m with
  | nil =>
    intro d hmem _
    simp at hmem
  | cons p m ih =>
    intro d hmem hnd
    have hcons : ∀ d0, genExactRates (p :: m) d0 = genExactRates m
        (dictInsert (dictInsert d0 (p.1, "CZK") p.2) ("CZK", p.1)
          (1 / p.2)) := fun d0 => rfl
    rcases List.mem_cons.mp hmem with hp | hp
    · have hgm : "GBP" ∉ m.map Prod.fst := by
        have hx := hnd
        rw [List.map_cons, List.nodup_cons, ← hp] at hx
        exact hx.1
      rw [hcons]
      obtain ⟨f1, f2⟩ := genExact_lookup_frame m
        (dictInsert (dictInsert d (p.1, "CZK") p.2) ("CZK", p.1) (1 / p.2))
        hgm
      constructor
      · rw [f1, ← hp, dictInsert_lookup_ne _ _ _ _ (by simp),
          dictInsert_lookup_self]
      · rw [f2, ← hp, dictInsert_lookup_self]
    · have hnd2 : (m.map Prod.fst).Nodup := by
        rw [List.map_cons, List.nodup_cons] at hnd
        exact hnd.2
      rw [hcons]
      exact ih _ hp hnd2

/-- find over a cons whose head satisfies the predicate. -/
theorem find?_cons_pos {A : Type} (p : A → Bool) (a : A) (l : List A)
    (h : p a = true) : (a :: l).find? p = some a :=
  List.find?_cons_of_pos l h

/-- find over a cons whose head fails the predicate. -/
theorem find?_cons_neg {A : Type} (p : A → Bool) (a : A) (l : List A)
    (h : p a = false) : (a :: l).find? p = l.find? p :=
  List.find?_cons_of_neg l (by simp [h])

/-- Updating the found official row relocates the find to the updated
row. -/
theorem setOfficialRate_official (rows : List RateRow) (fc tc : String)
    (v : Rat) (now : Nat) (r : RateRow)
    (h : officialRate rows fc tc = some r) :
    officialRate (setOfficialRate rows fc tc v now) fc tc =
      some { r with rate := v, updated := now } := by
  induction rows with
  | nil => simp [officialRate] at h
  | cons a rows ih =>
    by_cases ha : (a.from_currency == fc && a.to_currency == tc &&
        a.description == none) = true
    · unfold officialRate at h
      rw [find?_cons_pos _ a rows ha] at h
      obtain rfl : a = r := by simpa using h
      unfold setOfficialRate
      rw [if_pos ha]
      unfold officialRate
      exact find?_cons_pos _ _ rows ha
    · have haf : (a.from_currency == fc && a.to_currency == tc &&
          a.description == none) = false := by simpa using ha
      unfold officialRate at h
      rw [find?_cons_neg _ a rows haf] at h
      unfold setOfficialRate
      rw [if_neg ha]
      unfold officialRate
      rw [find?_cons_neg _ a _ haf]
      exact ih h

/-- In-place update of one official pair leaves lookups of any other pair
unchanged. -/
theorem setOfficialRate_official_ne (rows : List RateRow)
    (fc tc fc2 tc2 : String) (v : Rat) (now : Nat)
    (h : (fc2, tc2) ≠ (fc, tc)) :
    officialRate (setOfficialRate rows fc tc v now) fc2 tc2 =
      officialRate rows fc2 tc2 := by
  induction rows with
  | nil => rfl
  | cons a rows ih =>
    by_cases ha : (a.from_currency == fc && a.to_currency == tc &&
        a.description == none) = true
    · have ha2 : (a.from_currency == fc2 && a.to_currency == tc2 &&
          a.description == none) = false := by
        simp only [Bool.and_eq_true, beq_iff_eq] at ha
        by_contra hb
        simp only [Bool.not_eq_false, Bool.and_eq_true, beq_iff_eq] at hb
        exact h (by rw [← hb.1.1, ← hb.1.2, ha.1.1, ha.1.2])
      unfold setOfficialRate
      rw [if_pos ha]
      unfold officialRate
      rw [find?_cons_neg _ _ rows ha2, find?_cons_neg _ a rows ha2]
    · unfold setOfficialRate
      rw [if_neg ha]
      unfold officialRate
      by_cases ha2 : (a.from_currency == fc2 && a.to_currency == tc2 &&
          a.description == none) = true
      · rw [find?_cons_pos _ a _ ha2, find?_cons_pos _ a rows ha2]
      · have ha2f : (a.from_currency == fc2 && a.to_currency == tc2 &&
            a.description == none) = false := by simpa using ha2
        rw [find?_cons_neg _ a _ ha2f, find?_cons_neg _ a rows ha2f]
        exact ih

/-- One upsert establishes the official factor of its own pair. -/
theorem upsertOfficialRate_self (now : Nat) (fc tc : String) (v : Rat)
    (acc : List RateRow × Nat) :
    officialFactor (upsertOfficialRate now fc tc v acc).1 fc tc =
      some v := by
  unfold upsertOfficialRate
  cases hr : officialRate acc.1 fc tc with
  | some r =>
    by_cases hv : (r.rate == v) = true
    · simp only [hv, not_true_eq_false, if_false]
      simp [officialFactor, hr, eq_of_beq hv]
    · simp only [hv, Bool.false_eq_true, not_false_eq_true, if_true]
      simp [officialFactor, setOfficialRate_official acc.1 fc tc v now r hr]
  | none =>
    simp only
    unfold officialFactor officialRate
    rw [find?_append_right _ _ _ hr]
    simp

/-- One upsert leaves the official factor of every other pair unchanged. -/
theorem upsertOfficialRate_ne (now : Nat) (fc tc fc2 tc2 : String) (v : Rat)
    (acc : List RateRow × Nat) (h : (fc2, tc2) ≠ (fc, tc)) :
    officialFactor (upsertOfficialRate now fc tc v acc).1 fc2 tc2 =
      officialFactor acc.1 fc2 tc2 := by
  unfold upsertOfficialRate
  cases hr : officialRate acc.1 fc tc with
  | some r =>
    by_cases hv : (r.rate == v) = true
    · simp only [hv, not_true_eq_false, if_false]
    · simp only [hv, Bool.false_eq_true, not_false_eq_true, if_true]
      simp [officialFactor, setOfficialRate_official_ne acc.1 fc tc fc2 tc2
        v now h]
  | none =>
    simp only
    unfold officialFactor officialRate
    rw [List.find?_append]
    have hnew : (([(⟨acc.2, fc, tc, v, none, now, now⟩ : RateRow)]).find?
        (fun r => r.from_currency == fc2 &&
          r.to_currency == tc2 && r.description == none)) = none := by
      have hne : ¬ (fc = fc2 ∧ tc = tc2) := by
        intro hb
        exact h (by rw [hb.1, hb.2])
      simp only [List.find?_cons, List.find?_nil]
      by_cases h1 : fc = fc2
      · have h2 : tc ≠ tc2 := fun h2 => hne ⟨h1, h2⟩
        simp [h1, beq_eq_false_iff_ne.mpr h2]
      · simp [beq_eq_false_iff_ne.mpr h1]
    rw [hnew, Option.or_none]

/-- The upsert loop leaves a pair alone when no processed feed entry has
its key. -/
theorem upsert_foldl_frame (now : Nat) (L : List (RateKey × Rat))
    (acc : List RateRow × Nat) (fc tc : String)
    (h : (fc, tc) ∉ L.map Prod.fst) :
    officialFactor (L.foldl (fun acc p => if p.1.1 == p.1.2 then acc
      else upsertOfficialRate now p.1.1 p.1.2 p.2 acc) acc).1 fc tc =
      officialFactor acc.1 fc tc := by
  induction L generalizing acc with
  | nil => rfl
  | cons p L ih =>
    have hp : (fc, tc) ≠ p.1 := by
      intro hp
      exact h (by simp [← hp])
    have h2 : (fc, tc) ∉ L.map Prod.fst := by
      intro h2
      exact h (by simp [h2])
    rw [List.foldl_cons]
    by_cases hc : (p.1.1 == p.1.2) = true
    · rw [if_pos hc]
      exact ih _ h2
    · rw [if_neg hc]
      rw [ih _ h2]
      exact upsertOfficialRate_ne now p.1.1 p.1.2 fc tc p.2 acc
        (by simpa using hp)

/-- The upsert loop gives a pair its (unique) feed value. -/
theorem upsert_fold_key (now : Nat) (L : List (RateKey × Rat))
    (acc : List RateRow × Nat) (fc tc : String) (g : Rat)
    (hft : fc ≠ tc)
    (hmem : ((fc, tc), g) ∈ L)
    (hnd : (L.map Prod.fst).Nodup) :
    officialFactor (L.foldl (fun acc p => if p.1.1 == p.1.2 then acc
      else upsertOfficialRate now p.1.1 p.1.2 p.2 acc) acc).1 fc tc =
      some g := by
  obtain ⟨l1, l2, rfl⟩ := List.append_of_mem hmem
  have hk2 : (fc, tc) ∉ l2.map Prod.fst := by
    rw [List.map_append, List.map_cons] at hnd
    exact (List.nodup_cons.mp (hnd.of_append_right)).1
  rw [List.foldl_append, List.foldl_cons]
  have hbe : (fc == tc) = false := beq_eq_false_iff_ne.mpr hft
  rw [if_neg (by simp [hbe])]
  rw [upsert_foldl_frame now l2 _ fc tc hk2]
  exact upsertOfficialRate_self now fc tc g _

/-- A dict lookup yields a unique entry of the dict. -/
theorem dictLookup_mem (d : List (RateKey × Rat)) (k : RateKey) (v : Rat)
    (h : dictLookup d k = some v) : (k, v) ∈ d := by
  unfold dictLookup at h
  cases hf : d.find? (fun p => p.1 == k) with
  | none => rw [hf] at h; simp at h
  | some p =>
    rw [hf] at h
    have hp1 : p.1 = k := by
      have := List.find?_some hf
      simpa using this
    have hp2 : p.2 = v := by simpa using h
    have hp : p = (k, v) := by
      rw [← hp1, ← hp2]
    exact hp ▸ List.mem_of_find?_eq_some hf

/-- Claim C6 amended: auto-inverse bookkeeping holds only for the base/home
pair.  A feed refresh whose parsed feed lists GBP at factor g stores the
official GBP→CZK rate as g and the official CZK→GBP rate as 1/g — from
any starting rate table, so every later refresh (the only factor updater)
re-establishes the inverse relation for this pair.  For any other
currency X the refresh writes only the X→GBP and X→CZK directions and
creates no inverse rows (see the counterexample). -/
theorem cnb_refresh_base_home_inverse (s : St) (now : Nat)
    (m : List (String × Rat)) (g : Rat)
    (hmem : ("GBP", g) ∈ m) (hnd : (m.map Prod.fst).Nodup) (_hg : 0 < g) :
    officialFactor (updateCnbRates now m s).rates "GBP" "CZK" = some g ∧
    officialFactor (updateCnbRates now m s).rates "CZK" "GBP" =
      some (1 / g) := by
  obtain ⟨hl1, hl2⟩ := genExact_lookup_gbp m (genCrossRates m) g hmem hnd
  have hfetch1 : dictLookup (fetchCnbRates m) ("GBP", "CZK") = some g := hl1
  have hfetch2 : dictLookup (fetchCnbRates m) ("CZK", "GBP") =
    some (1 / g) := hl2
  have hkeys : ((fetchCnbRates m).map Prod.fst).Nodup := fetch_keys_nodup m
  have hne : (fetchCnbRates m).isEmpty = false := by
    cases hfc : fetchCnbRates m with
    | nil =>
      rw [hfc] at hfetch1
      simp [dictLookup] at hfetch1
    | cons a l => simp
  have hguard : ((fetchCnbRates m).isEmpty ||
      (dictLookup (fetchCnbRates m) ("CZK", "GBP")).isNone ||
      (dictLookup (fetchCnbRates m) ("GBP", "CZK")).isNone) = false := by
    rw [hne, hfetch1, hfetch2]
    simp
  have hsub : (((fetchCnbRates m).filter (fun p =>
      p.1.2 == BASE_CURRENCY || p.1.2 == HOME_CURRENCY)).map
        Prod.fst).Nodup :=
    hkeys.sublist (List.Sublist.map Prod.fst (List.filter_sublist _))
  have hm1 : ((("GBP", "CZK") : RateKey), g) ∈
      (fetchCnbRates m).filter (fun p =>
        p.1.2 == BASE_CURRENCY || p.1.2 == HOME_CURRENCY) :=
    List.mem_filter.mpr ⟨dictLookup_mem _ _ _ hfetch1, by
      simp [BASE_CURRENCY, HOME_CURRENCY]⟩
  have hm2 : ((("CZK", "GBP") : RateKey), 1 / g) ∈
      (fetchCnbRates m).filter (fun p =>
        p.1.2 == BASE_CURRENCY || p.1.2 == HOME_CURRENCY) :=
    List.mem_filter.mpr ⟨dictLookup_mem _ _ _ hfetch2, by
      simp [BASE_CURRENCY, HOME_CURRENCY]⟩
  unfold updateCnbRates
  rw [if_neg (by rw [hguard]; simp)]
  constructor
  · exact upsert_fold_key now _ (s.rates, s.next_rate_id) "GBP" "CZK" g
      (by simp) hm1 hsub
  · exact upsert_fold_key now _ (s.rates, s.next_rate_id) "CZK" "GBP" (1 / g)
      (by simp) hm2 hsub

/-- A two-currency parsed feed (GBP and USD, quoted against CZK). -/
def feedSmall : List (String × Rat) := [("GBP", 28), ("USD", 22)]

def cnbSt0 : St :=
  { rates := [], incomes := [], costs := [], expecteds := [], target := none,
    next_rate_id := 1, next_income_id := 1, next_cost_id := 1,
    next_expected_id := 1 }

def cnbSt1 : St := updateCnbRates 0 feedSmall cnbSt0

/-- The fetched dictionary for a two-currency GBP/USD feed, with the two
quoted factors kept opaque. -/
theorem fetch_feedSmall_gen (a b : Rat) :
    fetchCnbRates [("GBP", a), ("USD", b)] =
      [(("GBP", "USD"), 1 / (b * (1 / a))), (("USD", "GBP"), b * (1 / a)),
       (("GBP", "CZK"), a), (("CZK", "GBP"), 1 / a),
       (("USD", "CZK"), b), (("CZK", "USD"), 1 / b)] := by
  simp [fetchCnbRates, genExactRates, genCrossRates, dictInsert]

/-- Claim C6 counterexample: refreshing an empty rate table from a feed listing
GBP and USD creates the official USD→GBP rate (factor 11/14) with no
inverse existing beforehand, yet no GBP→USD row exists afterwards: the
refresh keeps only directions into the base or home currency, so inverse
consistency fails for every pair other than GBP/CZK. -/
theorem cnb_inverse_counterexample :
    officialFactor cnbSt0.rates "USD" "GBP" = none ∧
    officialFactor cnbSt0.rates "GBP" "USD" = none ∧
    officialFactor cnbSt1.rates "USD" "GBP" = some (11 / 14) ∧
    officialFactor cnbSt1.rates "GBP" "USD" = none := by
  have hfetch : fetchCnbRates feedSmall =
      [(("GBP", "USD"), 14 / 11), (("USD", "GBP"), 11 / 14),
       (("GBP", "CZK"), 28), (("CZK", "GBP"), 1 / 28),
       (("USD", "CZK"), 22), (("CZK", "USD"), 1 / 22)] := by
    rw [show feedSmall = [("GBP", (28 : Rat)), ("USD", 22)] from rfl,
      fetch_feedSmall_gen 28 22]
    norm_num
  refine ⟨rfl, rfl, ?_, ?_⟩ <;>
    simp [cnbSt1, cnbSt0, updateCnbRates, hfetch, dictLookup,
      upsertOfficialRate, setOfficialRate, officialFactor, officialRate,
      BASE_CURRENCY, HOME_CURRENCY]

/-- Witness for the amended C6: refreshing the empty table from the
two-currency feed stores GBP→CZK = 28 and CZK→GBP = 1/28. -/
theorem cnb_refresh_base_home_inverse_witness :
    officialFactor (updateCnbRates 0 feedSmall cnbSt0).rates "GBP" "CZK" =
      some 28 ∧
    officialFactor (updateCnbRates 0 feedSmall cnbSt0).rates "CZK" "GBP" =
      some (1 / 28) :=
  cnb_refresh_base_home_inverse cnbSt0 0 feedSmall 28
    (by simp [feedSmall]) (by simp [feedSmall]) (by norm_num)

end RevolutManager
